import Mathlib

/-!
Shallow embedding of `git-glimpse` (src/lib.rs and src/main.rs).

The program is a thin orchestration layer over the `git` CLI: every
interaction with repository state is a `git` subprocess invocation whose
line-oriented stdout is parsed. We model the external world as a pure
oracle `GitEnv` mapping a `git` argument list to the subprocess's result
(exit code and decoded stdout lines), and each program function as a pure
function of the oracle that additionally records the ordered trace of
subprocess invocations it performs and the warnings it logs.

Rust `panic!`/`assert!` aborts are modelled as a third outcome
(`Outcome.panicked`) distinct from the `Error` values that the top-level
`run` wrapper turns into exit codes.
-/

namespace GitGlimpse

/-- Decoded stdout of a subprocess: either valid UTF-8, already split into
its lines (as Rust's `str::lines` would), or invalid UTF-8. -/
inductive Vout : Type
  | utf8 (lines : List String)
  | nonUtf8
deriving DecidableEq

/-- Result of one subprocess: exit code (`none` models a signal-terminated
process with no code, as `ExitStatus::code() == None`) and its stdout. -/
structure CmdOutput where
  code : Option Int
  out : Vout
deriving DecidableEq

/-- The external world: every `git <args>` invocation's result.  All
commands the program runs are `git` commands, so the key is the argument
list after `git`. -/
def GitEnv : Type := List String → CmdOutput

/-- `Error` from src/lib.rs lines 34-38. -/
inductive Error : Type
  | subprocessFailedWithExplanation (code : Option Int)
  | other (msg : String)
deriving DecidableEq

/-- Outcome of running a fallible piece of the program: Rust
`Result<α, Error>` extended with a case for a `panic!`/`assert!` abort,
which in Rust unwinds past all the `Result` plumbing. -/
inductive Outcome (α : Type) : Type
  | ok (a : α)
  | err (e : Error)
  | panicked (msg : String)
deriving DecidableEq

/-- Result of running a program fragment: its outcome, the ordered list of
`git` argument lists it invoked, and the warnings it logged. -/
structure RunOut (α : Type) where
  res : Outcome α
  trace : List (List String)
  warnings : List String
deriving DecidableEq

/-- Rust's `str::trim`: remove leading and trailing whitespace.  (Defined
over the character list so that it evaluates by kernel reduction.) -/
def trimLine (s : String) : String :=
  String.mk (((s.data.dropWhile Char.isWhitespace).reverse.dropWhile Char.isWhitespace).reverse)

/-- `Error::from_status` (src/lib.rs lines 45-52): exit code 0 is success,
any other code (or a missing code) is `SubprocessFailedWithExplanation`. -/
def fromStatus (code : Option Int) : Outcome Unit :=
  match code with
  | some 0 => .ok ()
  | c => .err (.subprocessFailedWithExplanation c)

/-- `stdout_lines` (src/lib.rs lines 142-160): run the command, fail on a
non-zero status, fail with an internal error on non-UTF-8 stdout, and
return the trimmed stdout lines. -/
def stdout_lines (env : GitEnv) (args : List String) : Outcome (List String) :=
  let o := env args
  match fromStatus o.code with
  | .err e => .err e
  | .panicked m => .panicked m
  | .ok _ =>
    match o.out with
    | .nonUtf8 => .err (.other "stdout was not UTF-8 (!?)")
    | .utf8 ls => .ok (ls.map trimLine)

/-- `git_config` (src/lib.rs lines 162-193): exit 0 means the key was
read, exit 1 means the key is absent (`Ok(None)`), anything else is a
subprocess error; on success the first trimmed line is returned, and more
than one line of output trips a fatal `assert!` (modelled as a panic). -/
def git_config (env : GitEnv) (path : String) : Outcome (Option String) :=
  let o := env ["config", path]
  match o.code with
  | some 0 =>
    match o.out with
    | .nonUtf8 => .err (.other "stdout was not UTF-8 (!?)")
    | .utf8 ls =>
      match ls.map trimLine with
      | [] => .ok none
      | [l] => .ok (some l)
      | _ => .panicked "returned more than a single line of output"
  | some 1 => .ok none
  | c => .err (.subprocessFailedWithExplanation c)

/-- Argument list of the octopus merge-base query (src/lib.rs lines 86-89). -/
def mergeBaseArgs (object_names : List String) : List String :=
  ["merge-base", "--octopus"] ++ object_names

/-- Format resolution in `show_graph` (src/lib.rs lines 99-118): a
caller-supplied format wins and the configuration store is not consulted;
otherwise `glimpse.pretty` is read from git configuration. -/
def resolveFormat (env : GitEnv) (format : Option String) : RunOut (Option String) :=
  match format with
  | some f => ⟨.ok (some f), [], []⟩
  | none => ⟨git_config env "glimpse.pretty", [["config", "glimpse.pretty"]], []⟩

/-- Argument list of the final `git log` invocation (src/lib.rs
lines 119-129), in the order the code appends the arguments. -/
def logArgs (fmt : Option String) (merge_base : String) (object_names files : List String) :
    List String :=
  ["log", "--graph", "--decorate"]
  ++ (match fmt with
      | some f => ["--format=" ++ f]
      | none => [])
  ++ ["--ancestry-path", "^" ++ merge_base ++ "^@"]
  ++ object_names ++ ["--"] ++ files

/-- `show_graph` (src/lib.rs lines 80-134): compute the octopus merge-base
of the references, demand exactly one line of output, resolve the format,
then invoke `git log --graph --decorate ...` bounded below by the
merge-base, with the references as tips and the path filters after
an explicit `--` separator. -/
def show_graph (env : GitEnv) (format : Option String) (object_names files : List String) :
    RunOut Unit :=
  let mb := mergeBaseArgs object_names
  match stdout_lines env mb with
  | .err e => ⟨.err e, [mb], []⟩
  | .panicked m => ⟨.panicked m, [mb], []⟩
  | .ok output =>
    if output.length ≠ 1 then
      ⟨.err (.other ("expected a single line of output, but got " ++ toString output.length)),
       [mb], []⟩
    else
      let merge_base := output.getLastD ""
      let f := resolveFormat env format
      match f.res with
      | .err e => ⟨.err e, mb :: f.trace, []⟩
      | .panicked m => ⟨.panicked m, mb :: f.trace, []⟩
      | .ok fmt =>
        let la := logArgs fmt merge_base object_names files
        ⟨fromStatus (env la).code, mb :: f.trace ++ [la], []⟩

/-- How the process exits: a normal `exit(code)` or a Rust panic abort
(which bypasses `run`'s error handling entirely). -/
inductive ProcessExit : Type
  | exited (code : Int)
  | panicAbort (msg : String)
deriving DecidableEq

/-- `run` (src/lib.rs lines 10-25): success exits 0; a subprocess failure
propagates the subprocess's exit code, defaulting to 255 when there is
none; an internal error is logged and exits 254.  A panic is not handled
by `run` at all — the process aborts through the panic runtime. -/
def run (r : Outcome Unit) : ProcessExit :=
  match r with
  | .ok _ => .exited 0
  | .err (.subprocessFailedWithExplanation code) => .exited (code.getD 255)
  | .err (.other _) => .exited 254
  | .panicked m => .panicAbort m

/-! ## src/main.rs: CLI surface and the Selector -/

/-- `PresetConfig` (src/main.rs lines 66-77). -/
structure PresetConfig where
  select_upstreams : Bool
  select_pushes : Bool
  select_last_tag : Bool
deriving DecidableEq

/-- `Subcommand` (src/main.rs lines 27-64); path filters (`FileSelection`)
are carried as a string list. -/
inductive Subcommand : Type
  | stack (base : Option String) (config : PresetConfig) (files : List String)
  | locals (config : PresetConfig) (files : List String)
  | select (branches : List String) (files : List String)
deriving DecidableEq

/-- `Args` (src/main.rs lines 18-25). -/
structure Args where
  format : Option String
  subcommand : Option Subcommand
deriving DecidableEq

/-- The default subcommand substituted when none is given
(src/main.rs lines 89-97). -/
def defaultSubcommand : Subcommand :=
  .stack none ⟨false, false, false⟩ []

/-- Argument list of the current-branch query (src/main.rs lines 99-101). -/
def currentBranchArgs : List String := ["branch", "--show-current"]

/-- The `current_branch` closure (src/main.rs lines 98-109): the popped
(last) line of `git branch --show-current`, `none` when HEAD is detached. -/
def current_branch (env : GitEnv) : Outcome (Option String) :=
  match stdout_lines env currentBranchArgs with
  | .err e => .err e
  | .panicked m => .panicked m
  | .ok lines => .ok lines.getLast?

/-- The `include_in_format` closure (src/main.rs lines 125-127): the
fragment appended per optional property (upstream / push). -/
def includeInFormat (prop_name : String) : String :=
  "%(if)%(" ++ prop_name ++ ")%(then)\n%(" ++ prop_name ++ ":short)%(end)"

/-- The branch-listing format string built by the `branches` closure
(src/main.rs lines 120-136): when HEAD is detached the whole format is
wrapped in a `%(if)%(HEAD)%(then)HEAD%(else)...%(end)` conditional that
renders the detached-HEAD pseudo-entry as the literal string `HEAD`. -/
def branchFormat (head_is_detached : Bool) (sel : PresetConfig) : String :=
  "--format="
  ++ (if head_is_detached then "%(if)%(HEAD)%(then)HEAD%(else)" else "")
  ++ "%(refname:short)"
  ++ (if sel.select_upstreams then includeInFormat "upstream" else "")
  ++ (if sel.select_pushes then includeInFormat "push" else "")
  ++ (if head_is_detached then "%(end)" else "")

/-- Argument list of the branch-listing query: `list_branches_cmd`
(src/lib.rs lines 136-140) supplies `branch --list --format=%(refname:short)`,
the `branches` closure appends its computed format string (which overrides
the earlier one) and then the caller's extra pattern arguments
(src/main.rs line 138). -/
def branchListArgs (fmt : String) (patterns : List String) : List String :=
  ["branch", "--list", "--format=%(refname:short)"] ++ [fmt] ++ patterns

/-- Argument list of the last-tag query (src/main.rs lines 141-143). -/
def lastTagArgs : List String := ["rev-list", "--tags", "--max-count=1"]

/-- The `branches` closure (src/main.rs lines 110-152): detect detached
HEAD, build the listing format, run the branch-listing query with the
caller's pattern arguments, and optionally append the last tag (warning,
without failing, when no tag exists). -/
def branchesFn (env : GitEnv) (sel : PresetConfig) (patterns : List String) :
    RunOut (List String) :=
  match current_branch env with
  | .err e => ⟨.err e, [currentBranchArgs], []⟩
  | .panicked m => ⟨.panicked m, [currentBranchArgs], []⟩
  | .ok cb =>
    let head_is_detached := cb.isNone
    let cmd := branchListArgs (branchFormat head_is_detached sel) patterns
    match stdout_lines env cmd with
    | .err e => ⟨.err e, [currentBranchArgs, cmd], []⟩
    | .panicked m => ⟨.panicked m, [currentBranchArgs, cmd], []⟩
    | .ok listed =>
      if sel.select_last_tag then
        match stdout_lines env lastTagArgs with
        | .err e => ⟨.err e, [currentBranchArgs, cmd, lastTagArgs], []⟩
        | .panicked m => ⟨.panicked m, [currentBranchArgs, cmd, lastTagArgs], []⟩
        | .ok tagLines =>
          match tagLines.getLast? with
          | some last_tag =>
            ⟨.ok (listed ++ [last_tag]), [currentBranchArgs, cmd, lastTagArgs], []⟩
          | none =>
            ⟨.ok listed, [currentBranchArgs, cmd, lastTagArgs],
             ["last tag requested, but no last tag was found"]⟩
      else
        ⟨.ok listed, [currentBranchArgs, cmd], []⟩

/-- Base-reference resolution, first two tiers (src/main.rs lines 159-162):
an explicit `--base` flag wins and the configuration store is not
consulted; otherwise `glimpse.base` is read from git configuration. -/
def resolveSpecifiedBase (env : GitEnv) (base : Option String) : RunOut (Option String) :=
  match base with
  | some b => ⟨.ok (some b), [], []⟩
  | none => ⟨git_config env "glimpse.base", [["config", "glimpse.base"]], []⟩

/-- Base-reference resolution, third tier (src/main.rs lines 163-167):
when neither the flag nor the configuration supplied a base, fall back to
the hardcoded default `"main"`. -/
def resolvedBaseOf (specified : Option String) : String :=
  specified.getD "main"

/-- Stack-mode branch selection (src/main.rs lines 169-184): with a
checked-out branch, force upstream inclusion and drop the duplicate
pattern when it equals the base; when HEAD is detached, list the base
alone and push the literal `HEAD` onto the result. -/
def stackBranches (env : GitEnv) (config : PresetConfig) (base : String) :
    RunOut (List String) :=
  match current_branch env with
  | .err e => ⟨.err e, [currentBranchArgs], []⟩
  | .panicked m => ⟨.panicked m, [currentBranchArgs], []⟩
  | .ok (some cb) =>
    let config' := if cb = base then ⟨true, config.select_pushes, config.select_last_tag⟩ else config
    let patterns := (if base ≠ cb then [base] else []) ++ [cb]
    let r := branchesFn env config' patterns
    ⟨r.res, currentBranchArgs :: r.trace, r.warnings⟩
  | .ok none =>
    let r := branchesFn env config [base]
    match r.res with
    | .ok bs => ⟨.ok (bs ++ ["HEAD"]), currentBranchArgs :: r.trace, r.warnings⟩
    | .err e => ⟨.err e, currentBranchArgs :: r.trace, r.warnings⟩
    | .panicked m => ⟨.panicked m, currentBranchArgs :: r.trace, r.warnings⟩

/-- The body of `main` (src/main.rs lines 86-203): substitute the default
subcommand, run the Selector for the chosen mode, then hand the resolved
reference list and path filters to the Renderer (`show_graph`). -/
def mainRun (env : GitEnv) (args : Args) : RunOut Unit :=
  match args.subcommand.getD defaultSubcommand with
  | .stack base config files =>
    let sb := resolveSpecifiedBase env base
    match sb.res with
    | .err e => ⟨.err e, sb.trace, []⟩
    | .panicked m => ⟨.panicked m, sb.trace, []⟩
    | .ok specified =>
      let baseRef := resolvedBaseOf specified
      let bs := stackBranches env config baseRef
      match bs.res with
      | .err e => ⟨.err e, sb.trace ++ bs.trace, bs.warnings⟩
      | .panicked m => ⟨.panicked m, sb.trace ++ bs.trace, bs.warnings⟩
      | .ok branches =>
        let g := show_graph env args.format branches files
        ⟨g.res, sb.trace ++ bs.trace ++ g.trace, bs.warnings ++ g.warnings⟩
  | .locals config files =>
    let bs := branchesFn env config []
    match bs.res with
    | .err e => ⟨.err e, bs.trace, bs.warnings⟩
    | .panicked m => ⟨.panicked m, bs.trace, bs.warnings⟩
    | .ok branches =>
      let g := show_graph env args.format branches files
      ⟨g.res, bs.trace ++ g.trace, bs.warnings ++ g.warnings⟩
  | .select branches files =>
    let g := show_graph env args.format branches files
    ⟨g.res, g.trace, g.warnings⟩

/-! ## Claims -/

/-- Helper: the last element of a nonempty list ending in `[b]`. -/
theorem getLast_of_cons_concat {α : Type} (a b : α) (l : List α) :
    (a :: (l ++ [b])).getLast? = some b := by
  induction l generalizing a with
  | nil => rfl
  | cons x xs ih => simpa using ih x

/-- Helper: every command `show_graph` invokes is the merge-base query,
a command of the format resolution, or the log command. -/
theorem show_graph_trace_mem (env : GitEnv) (format : Option String) (refs files : List String) :
    ∀ c ∈ (show_graph env format refs files).trace,
      c = mergeBaseArgs refs ∨ c ∈ (resolveFormat env format).trace ∨
      ∃ fmt mb, c = logArgs fmt mb refs files := by
  unfold show_graph
  cases hs : stdout_lines env (mergeBaseArgs refs) with
  | err e => simp [hs]
  | panicked m => simp [hs]
  | ok output =>
    by_cases hl : output.length = 1
    · cases hf : (resolveFormat env format).res with
      | err e =>
        simp [hs, hl, hf]
        exact fun c hc => Or.inr (Or.inl hc)
      | panicked m =>
        simp [hs, hl, hf]
        exact fun c hc => Or.inr (Or.inl hc)
      | ok fmt =>
        simp only [hs, hl, hf]
        intro c hc
        simp at hc
        rcases hc with h | h | h
        · exact Or.inl h
        · exact Or.inr (Or.inl h)
        · exact Or.inr (Or.inr ⟨fmt, _, h⟩)
    · simp [hs, hl]

/-- Helper: the first command `show_graph` invokes is always the
octopus merge-base query. -/
theorem show_graph_trace_head (env : GitEnv) (format : Option String) (refs files : List String) :
    (show_graph env format refs files).trace.head? = some (mergeBaseArgs refs) := by
  unfold show_graph
  cases hs : stdout_lines env (mergeBaseArgs refs) with
  | err e => simp [hs]
  | panicked m => simp [hs]
  | ok output =>
    by_cases hl : output.length = 1
    · cases hf : (resolveFormat env format).res <;> simp [hs, hl, hf]
    · simp [hs, hl]

/-- C1: for every reference list, `show_graph` first runs the octopus
merge-base query and requires its stdout to be exactly one line: if that
query succeeds but yields zero lines or more than one line, `show_graph`
returns an internal (`Error::Other`, fatal) error, its invocation trace is
just the merge-base query, and in particular the log/graph subprocess is
never invoked. -/
theorem show_graph_requires_single_merge_base_line
    (env : GitEnv) (format : Option String) (refs files : List String)
    (ls : List String)
    (hcode : (env (mergeBaseArgs refs)).code = some 0)
    (hout : (env (mergeBaseArgs refs)).out = .utf8 ls)
    (hlen : ls.length ≠ 1) :
    (show_graph env format refs files).trace.head? = some (mergeBaseArgs refs) ∧
    (∃ msg, (show_graph env format refs files).res = .err (.other msg)) ∧
    (show_graph env format refs files).trace = [mergeBaseArgs refs] ∧
    ∀ c ∈ (show_graph env format refs files).trace, c.head? ≠ some "log" := by
  have hsl : stdout_lines env (mergeBaseArgs refs) = .ok (ls.map trimLine) := by
    simp [stdout_lines, fromStatus, hcode, hout]
  have hlen' : (ls.map trimLine).length ≠ 1 := by
    simpa using hlen
  simp [show_graph, hsl, hlen', hlen]
  simp [mergeBaseArgs]

/-- C1 witness: a concrete environment whose merge-base query succeeds
with two lines of output. -/
theorem show_graph_requires_single_merge_base_line_witness :
    (show_graph (fun _ => ⟨some 0, .utf8 ["a", "b"]⟩) none ["x", "y"] []).trace.head? =
      some (mergeBaseArgs ["x", "y"]) ∧
    (∃ msg, (show_graph (fun _ => ⟨some 0, .utf8 ["a", "b"]⟩) none ["x", "y"] []).res =
      .err (.other msg)) ∧
    (show_graph (fun _ => ⟨some 0, .utf8 ["a", "b"]⟩) none ["x", "y"] []).trace =
      [mergeBaseArgs ["x", "y"]] ∧
    ∀ c ∈ (show_graph (fun _ => ⟨some 0, .utf8 ["a", "b"]⟩) none ["x", "y"] []).trace,
      c.head? ≠ some "log" :=
  show_graph_requires_single_merge_base_line
    (fun _ => ⟨some 0, .utf8 ["a", "b"]⟩) none ["x", "y"] [] ["a", "b"]
    rfl rfl (by decide)

/-- C2: whenever the merge-base query yields exactly one line and the
format resolution yields `fmt`, the final (log) invocation's argument list
is exactly `log --graph --decorate`, then the format argument if one was
resolved, then `--ancestry-path`, then the single boundary argument
`^<merge-base>^@` built from the one (trimmed) merge-base line, then the
references in input order, then `--`, then the path filters in input
order, and nothing else. -/
theorem show_graph_log_invocation_args
    (env : GitEnv) (format : Option String) (refs files : List String)
    (mbLine : String) (fmt : Option String)
    (hcode : (env (mergeBaseArgs refs)).code = some 0)
    (hout : (env (mergeBaseArgs refs)).out = .utf8 [mbLine])
    (hfmt : (resolveFormat env format).res = .ok fmt) :
    (show_graph env format refs files).trace.getLast? = some (
      ["log", "--graph", "--decorate"]
      ++ (match fmt with
          | some f => ["--format=" ++ f]
          | none => [])
      ++ ["--ancestry-path", "^" ++ trimLine mbLine ++ "^@"]
      ++ refs ++ ["--"] ++ files) := by
  have hsl : stdout_lines env (mergeBaseArgs refs) = .ok [trimLine mbLine] := by
    simp [stdout_lines, fromStatus, hcode, hout]
  cases fmt with
  | none => simp [show_graph, hsl, hfmt, logArgs, getLast_of_cons_concat]
  | some f => simp [show_graph, hsl, hfmt, logArgs, getLast_of_cons_concat]

/-- C2 witness: a concrete environment where the merge-base of
`release, main` is the line `mb0` and no format is resolved. -/
theorem show_graph_log_invocation_args_witness :
    let env : GitEnv := fun args =>
      if args = mergeBaseArgs ["release", "main"] then ⟨some 0, .utf8 ["mb0"]⟩
      else ⟨some 1, .utf8 []⟩
    (show_graph env none ["release", "main"] []).trace.getLast? = some
      ["log", "--graph", "--decorate", "--ancestry-path", "^mb0^@",
       "release", "main", "--"] := by
  have h := show_graph_log_invocation_args
    (fun args =>
      if args = mergeBaseArgs ["release", "main"] then ⟨some 0, .utf8 ["mb0"]⟩
      else ⟨some 1, .utf8 []⟩)
    none ["release", "main"] [] "mb0" none
    (by decide) (by decide) (by decide)
  have ht : trimLine "mb0" = "mb0" := by decide
  simpa [ht] using h

/-- C5: `show_graph`'s format precedence: a caller-supplied format is used
and the configuration store is never consulted (no `config glimpse.pretty`
invocation appears in the trace); otherwise the `glimpse.pretty` key is
read and, if present, used; and when neither source yields a format no
`--format=` argument is passed to the log subprocess at all (the log
argument list goes straight from `--decorate` to `--ancestry-path`). -/
theorem show_graph_format_precedence :
    (∀ (env : GitEnv) (f : String) (refs files : List String),
       (resolveFormat env (some f)).res = .ok (some f) ∧
       (resolveFormat env (some f)).trace = [] ∧
       ∀ c ∈ (show_graph env (some f) refs files).trace, c ≠ ["config", "glimpse.pretty"]) ∧
    (∀ (env : GitEnv) (g : String),
       git_config env "glimpse.pretty" = .ok (some g) →
       (resolveFormat env none).res = .ok (some g)) ∧
    (∀ (env : GitEnv) (refs files : List String) (mbLine : String),
       (env (mergeBaseArgs refs)).code = some 0 →
       (env (mergeBaseArgs refs)).out = .utf8 [mbLine] →
       git_config env "glimpse.pretty" = .ok none →
       (show_graph env none refs files).trace.getLast? = some
         (["log", "--graph", "--decorate", "--ancestry-path",
           "^" ++ trimLine mbLine ++ "^@"] ++ refs ++ ["--"] ++ files)) := by
  refine ⟨fun env f refs files => ⟨rfl, rfl, fun c hc => ?_⟩, fun env g hg => ?_, ?_⟩
  · rcases show_graph_trace_mem env (some f) refs files c hc with h | h | h
    · subst h
      simp [mergeBaseArgs]
    · simp [resolveFormat] at h
    · rcases h with ⟨fmt, mb, h⟩
      subst h
      simp [logArgs]
  · simp [resolveFormat, hg]
  · intro env refs files mbLine hcode hout hcfg
    have hsl : stdout_lines env (mergeBaseArgs refs) = .ok [trimLine mbLine] := by
      simp [stdout_lines, fromStatus, hcode, hout]
    have hfmt : (resolveFormat env none).res = .ok none := by
      simp [resolveFormat, hcfg]
    simpa [show_graph, hsl, hfmt, logArgs] using
      getLast_of_cons_concat (mergeBaseArgs refs)
        (["log", "--graph", "--decorate", "--ancestry-path",
          "^" ++ trimLine mbLine ++ "^@"] ++ refs ++ ["--"] ++ files)
        (resolveFormat env none).trace

/-- C5 witness: concrete environments for the three precedence tiers. -/
theorem show_graph_format_precedence_witness :
    ((resolveFormat (fun _ => ⟨some 0, .utf8 []⟩) (some "F")).res = .ok (some "F")) ∧
    ((resolveFormat (fun _ => ⟨some 0, .utf8 ["G"]⟩) none).res = .ok (some "G")) ∧
    ((show_graph (fun a => if a = ["config", "glimpse.pretty"] then ⟨some 1, .utf8 []⟩
        else ⟨some 0, .utf8 ["m"]⟩) none ["r"] []).trace.getLast? = some
      ["log", "--graph", "--decorate", "--ancestry-path", "^m^@", "r", "--"]) := by
  refine ⟨(show_graph_format_precedence.1 (fun _ => ⟨some 0, .utf8 []⟩) "F" [] []).1,
    show_graph_format_precedence.2.1 (fun _ => ⟨some 0, .utf8 ["G"]⟩) "G" (by decide), ?_⟩
  have h := show_graph_format_precedence.2.2
    (fun a => if a = ["config", "glimpse.pretty"] then ⟨some 1, .utf8 []⟩
      else ⟨some 0, .utf8 ["m"]⟩) ["r"] [] "m" (by decide) (by decide) (by decide)
  have ht : trimLine "m" = "m" := by decide
  simpa [ht] using h

/-- C4: three-tier base resolution in Stack mode: an explicit `--base`
flag value is used as-is and the configuration store is not consulted
(empty trace); otherwise a configured `glimpse.base` value is used;
otherwise the hardcoded constant `"main"` is used. -/
theorem stack_base_resolution_precedence :
    (∀ (env : GitEnv) (v : String),
       (resolveSpecifiedBase env (some v)).res = .ok (some v) ∧
       (resolveSpecifiedBase env (some v)).trace = [] ∧
       resolvedBaseOf (some v) = v) ∧
    (∀ (env : GitEnv) (w : String),
       git_config env "glimpse.base" = .ok (some w) →
       (resolveSpecifiedBase env none).res = .ok (some w) ∧
       resolvedBaseOf (some w) = w) ∧
    (∀ env : GitEnv,
       git_config env "glimpse.base" = .ok none →
       (resolveSpecifiedBase env none).res = .ok none ∧
       resolvedBaseOf none = "main") := by
  refine ⟨fun env v => ⟨rfl, rfl, rfl⟩, fun env w hw => ⟨?_, rfl⟩, fun env h => ⟨?_, rfl⟩⟩
  · simp [resolveSpecifiedBase, hw]
  · simp [resolveSpecifiedBase, h]

/-- C4 witness: `--base=dev` beats a configured `glimpse.base=trunk`,
which beats the hardcoded `main`. -/
theorem stack_base_resolution_precedence_witness :
    ((resolveSpecifiedBase (fun _ => ⟨some 0, .utf8 ["trunk"]⟩) (some "dev")).res =
       .ok (some "dev") ∧ resolvedBaseOf (some "dev") = "dev") ∧
    ((resolveSpecifiedBase (fun _ => ⟨some 0, .utf8 ["trunk"]⟩) none).res =
       .ok (some "trunk") ∧ resolvedBaseOf (some "trunk") = "trunk") ∧
    ((resolveSpecifiedBase (fun _ => ⟨some 1, .utf8 []⟩) none).res = .ok none ∧
       resolvedBaseOf none = "main") := by
  refine ⟨⟨(stack_base_resolution_precedence.1 (fun _ => ⟨some 0, .utf8 ["trunk"]⟩) "dev").1,
           (stack_base_resolution_precedence.1 (fun _ => ⟨some 0, .utf8 ["trunk"]⟩) "dev").2.2⟩,
    stack_base_resolution_precedence.2.1 (fun _ => ⟨some 0, .utf8 ["trunk"]⟩) "trunk" (by decide),
    stack_base_resolution_precedence.2.2 (fun _ => ⟨some 1, .utf8 []⟩) (by decide)⟩

/-- C3: in Stack mode, when the current checked-out branch equals the
resolved base, the single branch-listing query receives the base exactly
once as a pattern argument (it is not passed a second time), its format is
the one with upstream inclusion forced on regardless of the caller's
flag, and (with no last-tag selection) the resulting reference list is
exactly what that single-pattern query returned — so the base is not
duplicated by the Selector. -/
theorem stack_current_equals_base_dedup_and_upstreams
    (env : GitEnv) (sel : PresetConfig) (base : String)
    (hcb : current_branch env = .ok (some base)) :
    ((stackBranches env sel base).trace.filter
        (fun c => c.take 2 == ["branch", "--list"])) =
      [branchListArgs
        (branchFormat false ⟨true, sel.select_pushes, sel.select_last_tag⟩) [base]] ∧
    (∀ bs, stdout_lines env
        (branchListArgs
          (branchFormat false ⟨true, sel.select_pushes, sel.select_last_tag⟩) [base]) =
        .ok bs →
      sel.select_last_tag = false →
      (stackBranches env sel base).res = .ok bs) := by
  constructor
  · simp only [stackBranches, hcb]
    simp only [branchesFn, hcb]
    simp only [Option.isNone_some, ne_eq, eq_self_iff_true, not_true, ite_true, ite_false,
      List.nil_append]
    split <;> (try split) <;> (try split) <;> (try split) <;>
      simp [branchListArgs, currentBranchArgs, lastTagArgs]
  · intro bs hbs hlt
    simp only [stackBranches, hcb]
    simp only [branchesFn, hcb]
    simp only [Option.isNone_some, ne_eq, eq_self_iff_true, not_true, ite_true, ite_false,
      List.nil_append]
    rw [hbs]
    simp [hlt]

/-- C3 witness: current branch `main` equals the base `main`; the caller's
flags have upstream inclusion off, yet the issued query carries the
forced-upstream format and `main` appears once. -/
theorem stack_current_equals_base_dedup_and_upstreams_witness :
    ((stackBranches (fun a => if a = currentBranchArgs then ⟨some 0, .utf8 ["main"]⟩
        else ⟨some 0, .utf8 ["main"]⟩) ⟨false, false, false⟩ "main").trace.filter
        (fun c => c.take 2 == ["branch", "--list"])) =
      [branchListArgs (branchFormat false ⟨true, false, false⟩) ["main"]] ∧
    (stackBranches (fun a => if a = currentBranchArgs then ⟨some 0, .utf8 ["main"]⟩
        else ⟨some 0, .utf8 ["main"]⟩) ⟨false, false, false⟩ "main").res = .ok ["main"] := by
  have h := stack_current_equals_base_dedup_and_upstreams
    (fun a => if a = currentBranchArgs then ⟨some 0, .utf8 ["main"]⟩
      else ⟨some 0, .utf8 ["main"]⟩) ⟨false, false, false⟩ "main" (by decide)
  exact ⟨h.1, h.2 ["main"] (by decide) rfl⟩

/-- Helper: a successful `branchesFn` result is the branch-listing query's
output, possibly extended by the popped last-tag line. -/
theorem branchesFn_ok_cases (env : GitEnv) (sel : PresetConfig) (patterns : List String)
    (cb : Option String) (hcb : current_branch env = .ok cb) (out : List String)
    (hout : (branchesFn env sel patterns).res = .ok out) :
    ∃ listed, stdout_lines env (branchListArgs (branchFormat cb.isNone sel) patterns) =
        .ok listed ∧
      (out = listed ∨
        ∃ ts t, stdout_lines env lastTagArgs = .ok ts ∧ ts.getLast? = some t ∧
          out = listed ++ [t]) := by
  simp only [branchesFn, hcb] at hout
  split at hout
  · simp at hout
  · simp at hout
  · rename_i listed hls
    split at hout
    · split at hout
      · simp at hout
      · simp at hout
      · rename_i ts hts
        split at hout
        · rename_i t htl
          simp only [Outcome.ok.injEq] at hout
          exact ⟨listed, hls, Or.inr ⟨ts, t, hts, htl, hout.symm⟩⟩
        · simp only [Outcome.ok.injEq] at hout
          exact ⟨listed, hls, Or.inl hout.symm⟩
    · simp only [Outcome.ok.injEq] at hout
      exact ⟨listed, hls, Or.inl hout.symm⟩

/-- C8: whenever HEAD is detached (the current-branch query yields no
line), the string `HEAD` ends up in the final reference list exactly once.
The detached listing format opens with the
`%(if)%(HEAD)%(then)HEAD%(else)...%(end)` conditional (the injection
mechanism of Locals mode); Stack mode instead pushes an explicit `HEAD`
once after the listing.  Under the environment assumptions matching git's
behaviour — the pattern-restricted Stack listing never emits `HEAD`, the
unrestricted Locals listing emits it exactly once via the conditional, and
a tag line is never `HEAD` — each mode's final list counts `HEAD` exactly
once. -/
theorem detached_head_injected_exactly_once :
    (∀ sel : PresetConfig, branchFormat true sel =
      "--format=%(if)%(HEAD)%(then)HEAD%(else)" ++
        ("%(refname:short)"
          ++ (if sel.select_upstreams then includeInFormat "upstream" else "")
          ++ (if sel.select_pushes then includeInFormat "push" else "")
          ++ "%(end)")) ∧
    (∀ (env : GitEnv) (sel : PresetConfig) (base : String) (bs : List String),
       current_branch env = .ok none →
       (branchesFn env sel [base]).res = .ok bs →
       (stackBranches env sel base).res = .ok (bs ++ ["HEAD"])) ∧
    (∀ (env : GitEnv) (sel : PresetConfig) (base : String),
       current_branch env = .ok none →
       (∀ bs, stdout_lines env (branchListArgs (branchFormat true sel) [base]) = .ok bs →
          bs.count "HEAD" = 0) →
       (∀ ts t, stdout_lines env lastTagArgs = .ok ts → ts.getLast? = some t →
          t ≠ "HEAD") →
       ∀ out, (stackBranches env sel base).res = .ok out → out.count "HEAD" = 1) ∧
    (∀ (env : GitEnv) (sel : PresetConfig),
       current_branch env = .ok none →
       (∀ bs, stdout_lines env (branchListArgs (branchFormat true sel) []) = .ok bs →
          bs.count "HEAD" = 1) →
       (∀ ts t, stdout_lines env lastTagArgs = .ok ts → ts.getLast? = some t →
          t ≠ "HEAD") →
       ∀ out, (branchesFn env sel []).res = .ok out → out.count "HEAD" = 1) := by
  refine ⟨fun sel => ?_, fun env sel base bs hdet hbs => ?_, ?_, ?_⟩
  · cases hu : sel.select_upstreams <;> cases hp : sel.select_pushes <;>
      simp [branchFormat, includeInFormat, hu, hp]
  · simp only [stackBranches, hdet]
    rw [hbs]
  · intro env sel base hdet hlist htag out hok
    simp only [stackBranches, hdet] at hok
    split at hok
    · rename_i bs hbs
      simp only [Outcome.ok.injEq] at hok
      obtain ⟨listed, hls, hcase⟩ :=
        branchesFn_ok_cases env sel [base] none hdet bs hbs
      have hl0 : listed.count "HEAD" = 0 := hlist listed (by simpa using hls)
      rcases hcase with h | ⟨ts, t, hts, htl, h⟩
      · subst h
        simp [← hok, List.count_append, hl0]
      · subst h
        have ht0 : t ≠ "HEAD" := htag ts t hts htl
        simp [← hok, List.count_append, hl0, List.count_cons, ht0]
    · simp at hok
    · simp at hok
  · intro env sel hdet hlist htag out hok
    obtain ⟨listed, hls, hcase⟩ := branchesFn_ok_cases env sel [] none hdet out hok
    have hl1 : listed.count "HEAD" = 1 := hlist listed (by simpa using hls)
    rcases hcase with h | ⟨ts, t, hts, htl, h⟩
    · subst h
      exact hl1
    · subst h
      have ht0 : t ≠ "HEAD" := htag ts t hts htl
      simp [List.count_append, hl1, List.count_cons, ht0]

/-- C8 witness: a detached Stack run over base `main` (listing returns
`main` only, tag `t0`) and a detached Locals run (listing returns the
conditional-injected `HEAD` plus `b1`); each final list holds `HEAD`
once. -/
theorem detached_head_injected_exactly_once_witness :
    ((["main", "HEAD"] : List String).count "HEAD" = 1) ∧
    ((["HEAD", "b1"] : List String).count "HEAD" = 1) := by
  constructor
  · refine detached_head_injected_exactly_once.2.2.1
      (fun a => if a = currentBranchArgs then ⟨some 0, .utf8 []⟩
        else if a = lastTagArgs then ⟨some 0, .utf8 ["t0"]⟩
        else ⟨some 0, .utf8 ["main"]⟩)
      ⟨false, false, false⟩ "main" (by decide) ?_ ?_ ["main", "HEAD"] (by decide)
    · intro bs h
      rw [show stdout_lines
          (fun a => if a = currentBranchArgs then ⟨some 0, .utf8 []⟩
            else if a = lastTagArgs then ⟨some 0, .utf8 ["t0"]⟩
            else ⟨some 0, .utf8 ["main"]⟩)
          (branchListArgs (branchFormat true ⟨false, false, false⟩) ["main"]) =
          .ok ["main"] from by decide] at h
      cases h
      decide
    · intro ts t h htl
      rw [show stdout_lines
          (fun a => if a = currentBranchArgs then ⟨some 0, .utf8 []⟩
            else if a = lastTagArgs then ⟨some 0, .utf8 ["t0"]⟩
            else ⟨some 0, .utf8 ["main"]⟩) lastTagArgs = .ok ["t0"] from by decide] at h
      cases h
      simp at htl
      subst htl
      decide
  · refine detached_head_injected_exactly_once.2.2.2
      (fun a => if a = currentBranchArgs then ⟨some 0, .utf8 []⟩
        else if a = lastTagArgs then ⟨some 0, .utf8 ["t0"]⟩
        else ⟨some 0, .utf8 ["HEAD", "b1"]⟩)
      ⟨false, false, false⟩ (by decide) ?_ ?_ ["HEAD", "b1"] (by decide)
    · intro bs h
      rw [show stdout_lines
          (fun a => if a = currentBranchArgs then ⟨some 0, .utf8 []⟩
            else if a = lastTagArgs then ⟨some 0, .utf8 ["t0"]⟩
            else ⟨some 0, .utf8 ["HEAD", "b1"]⟩)
          (branchListArgs (branchFormat true ⟨false, false, false⟩) []) =
          .ok ["HEAD", "b1"] from by decide] at h
      cases h
      decide
    · intro ts t h htl
      rw [show stdout_lines
          (fun a => if a = currentBranchArgs then ⟨some 0, .utf8 []⟩
            else if a = lastTagArgs then ⟨some 0, .utf8 ["t0"]⟩
            else ⟨some 0, .utf8 ["HEAD", "b1"]⟩) lastTagArgs = .ok ["t0"] from by decide] at h
      cases h
      simp at htl
      subst htl
      decide

/-- Helper: the head of a list is a member. -/
theorem mem_of_head_eq {α : Type} {l : List α} {a : α} (h : l.head? = some a) : a ∈ l := by
  cases l with
  | nil => simp at h
  | cons x xs =>
    simp at h
    subst h
    exact List.mem_cons_self _ _

/-- C9: when last-tag inclusion is requested and the tag query returns no
line, the Selector logs exactly the no-tag warning, appends nothing to the
listing result, and the run still reaches the Renderer (the merge-base
query for the selected references is invoked); when the tag query returns
a line, that value is appended at the end of the reference list and no
warning is logged. -/
theorem last_tag_missing_warns_and_continues
    (env : GitEnv) (sel : PresetConfig) (patterns : List String)
    (cb : Option String) (bs : List String)
    (hsel : sel.select_last_tag = true)
    (hcb : current_branch env = .ok cb)
    (hlist : stdout_lines env (branchListArgs (branchFormat cb.isNone sel) patterns) =
      .ok bs) :
    (stdout_lines env lastTagArgs = .ok [] →
       (branchesFn env sel patterns).res = .ok bs ∧
       (branchesFn env sel patterns).warnings =
         ["last tag requested, but no last tag was found"]) ∧
    (∀ t, stdout_lines env lastTagArgs = .ok [t] →
       (branchesFn env sel patterns).res = .ok (bs ++ [t]) ∧
       (branchesFn env sel patterns).warnings = []) ∧
    (stdout_lines env lastTagArgs = .ok [] → patterns = [] →
       ∀ (fmtArg : Option String) (files : List String),
         mergeBaseArgs bs ∈
           (mainRun env ⟨fmtArg, some (.locals sel files)⟩).trace) := by
  refine ⟨fun hts => ?_, fun t hts => ?_, fun hts hpat fmtArg files => ?_⟩
  · simp only [branchesFn, hcb]
    rw [hlist]
    simp [hsel, hts]
  · simp only [branchesFn, hcb]
    rw [hlist]
    simp [hsel, hts]
  · subst hpat
    have hres : (branchesFn env sel []).res = .ok bs := by
      simp only [branchesFn, hcb]
      rw [hlist]
      simp [hsel, hts]
    simp only [mainRun, Option.getD_some]
    rw [hres]
    exact List.mem_append_right _
      (mem_of_head_eq (show_graph_trace_head env fmtArg bs files))

/-- Environment for the C9 witness: no tag exists (`rev-list --tags`
yields no line); the listing yields the branch `b`. -/
def envNoTag : GitEnv := fun a =>
  if a = currentBranchArgs then ⟨some 0, .utf8 ["b"]⟩
  else if a = lastTagArgs then ⟨some 0, .utf8 []⟩
  else ⟨some 0, .utf8 ["b"]⟩

/-- Environment for the C9 witness: the last tag is `t1`. -/
def envWithTag : GitEnv := fun a =>
  if a = currentBranchArgs then ⟨some 0, .utf8 ["b"]⟩
  else if a = lastTagArgs then ⟨some 0, .utf8 ["t1"]⟩
  else ⟨some 0, .utf8 ["b"]⟩

/-- C9 witness: with no tag, the list stays `[b]`, the warning is logged
and the renderer's merge-base query still runs; with tag `t1`, the list
becomes `[b, t1]` with no warning. -/
theorem last_tag_missing_warns_and_continues_witness :
    ((branchesFn envNoTag ⟨false, false, true⟩ []).res = .ok ["b"] ∧
     (branchesFn envNoTag ⟨false, false, true⟩ []).warnings =
       ["last tag requested, but no last tag was found"]) ∧
    ((branchesFn envWithTag ⟨false, false, true⟩ []).res = .ok ["b", "t1"] ∧
     (branchesFn envWithTag ⟨false, false, true⟩ []).warnings = []) ∧
    mergeBaseArgs ["b"] ∈
      (mainRun envNoTag ⟨none, some (.locals ⟨false, false, true⟩ [])⟩).trace := by
  refine ⟨(last_tag_missing_warns_and_continues envNoTag ⟨false, false, true⟩ []
      (some "b") ["b"] rfl (by decide) (by decide)).1 (by decide),
    ?_,
    (last_tag_missing_warns_and_continues envNoTag ⟨false, false, true⟩ []
      (some "b") ["b"] rfl (by decide) (by decide)).2.2 (by decide) rfl none []⟩
  exact (last_tag_missing_warns_and_continues envWithTag ⟨false, false, true⟩ []
      (some "b") ["b"] rfl (by decide) (by decide)).2.1 "t1" (by decide)

/-- C10: invoking the program with no subcommand is exactly Stack mode
with no base override, the three preset flags off, and an empty path
filter list; the top-level format flag is passed through identically. -/
theorem no_subcommand_defaults_to_stack (env : GitEnv) (format : Option String) :
    mainRun env ⟨format, none⟩ =
      mainRun env ⟨format, some (.stack none ⟨false, false, false⟩ [])⟩ ∧
    defaultSubcommand = .stack none ⟨false, false, false⟩ [] :=
  ⟨rfl, rfl⟩

/-- C6 counterexample: the claim says `git_config` returns `Ok(None)`
*exactly* when the subprocess exits with code 1, and returns the first
trimmed line in `Ok(Some _)` whenever it exits 0.  But with exit code 0
and empty stdout (zero lines) the code returns `Ok(None)` as well:
`lines.next()` is `None` and `Ok(first_line)` is `Ok(None)`. -/
theorem git_config_ok_none_on_exit_zero_empty :
    ((fun _ => ⟨some 0, .utf8 []⟩ : GitEnv) ["config", "user.name"]).code = some 0 ∧
    ((fun _ => ⟨some 0, .utf8 []⟩ : GitEnv) ["config", "user.name"]).code ≠ some 1 ∧
    git_config (fun _ => ⟨some 0, .utf8 []⟩) "user.name" = .ok none := by
  refine ⟨rfl, by decide, rfl⟩

/-- C6 (amended): `git_config` returns `Ok(None)` when the config
subprocess exits 1 (absent key) or exits 0 with empty stdout; returns the
first trimmed stdout line in `Ok(Some _)` when it exits 0 with exactly one
line; panics (fatal assertion) when a successful query produces more than
one line; and returns a subprocess error for any other exit status. -/
theorem git_config_behaviour (env : GitEnv) (path : String) :
    ((env ["config", path]).code = some 1 → git_config env path = .ok none) ∧
    ((env ["config", path]).code = some 0 → (env ["config", path]).out = .utf8 [] →
       git_config env path = .ok none) ∧
    (∀ l, (env ["config", path]).code = some 0 →
       (env ["config", path]).out = .utf8 [l] →
       git_config env path = .ok (some (trimLine l))) ∧
    (∀ l₁ l₂ rest, (env ["config", path]).code = some 0 →
       (env ["config", path]).out = .utf8 (l₁ :: l₂ :: rest) →
       git_config env path = .panicked "returned more than a single line of output") ∧
    (∀ c, (env ["config", path]).code = c → c ≠ some 0 → c ≠ some 1 →
       git_config env path = .err (.subprocessFailedWithExplanation c)) := by
  refine ⟨fun h1 => ?_, fun h0 hout => ?_, fun l h0 hout => ?_,
    fun l₁ l₂ rest h0 hout => ?_, fun c hc h0 h1 => ?_⟩
  · simp [git_config, h1]
  · simp [git_config, h0, hout]
  · simp [git_config, h0, hout]
  · simp [git_config, h0, hout]
  · simp only [git_config, hc]

/-- C6 witness: concrete subprocess results for each case of the amended
behaviour. -/
theorem git_config_behaviour_witness :
    git_config (fun _ => ⟨some 1, .utf8 []⟩) "k" = .ok none ∧
    git_config (fun _ => ⟨some 0, .utf8 []⟩) "k" = .ok none ∧
    git_config (fun _ => ⟨some 0, .utf8 [" v "]⟩) "k" = .ok (some "v") ∧
    git_config (fun _ => ⟨some 0, .utf8 ["a", "b"]⟩) "k" =
      .panicked "returned more than a single line of output" ∧
    git_config (fun _ => ⟨some 128, .utf8 []⟩) "k" =
      .err (.subprocessFailedWithExplanation (some 128)) := by
  refine ⟨(git_config_behaviour (fun _ => ⟨some 1, .utf8 []⟩) "k").1 rfl,
    (git_config_behaviour (fun _ => ⟨some 0, .utf8 []⟩) "k").2.1 rfl rfl,
    ?_,
    (git_config_behaviour (fun _ => ⟨some 0, .utf8 ["a", "b"]⟩) "k").2.2.2.1
      "a" "b" [] rfl rfl,
    (git_config_behaviour (fun _ => ⟨some 128, .utf8 []⟩) "k").2.2.2.2
      (some 128) rfl (by decide) (by decide)⟩
  have h := (git_config_behaviour (fun _ => ⟨some 0, .utf8 [" v "]⟩) "k").2.2.1
    " v " rfl rfl
  have ht : trimLine " v " = "v" := by decide
  rwa [ht] at h

/-- C7 counterexample: the claim routes "malformed configuration" (the
multi-line configuration value) to the logged sentinel exit 254, but the
code hits the `assert!` in `git_config` and panics instead — the process
aborts through the panic runtime, and `run`'s 254 path is never taken.
Concretely: a default (Stack-mode) invocation where `git config
glimpse.base` exits 0 with two lines of output. -/
theorem multiline_config_panics_not_254 :
    (mainRun (fun a => if a = ["config", "glimpse.base"] then ⟨some 0, .utf8 ["a", "b"]⟩
        else ⟨some 0, .utf8 []⟩) ⟨none, none⟩).res =
      .panicked "returned more than a single line of output" ∧
    run (mainRun (fun a => if a = ["config", "glimpse.base"] then ⟨some 0, .utf8 ["a", "b"]⟩
        else ⟨some 0, .utf8 []⟩) ⟨none, none⟩).res ≠ .exited 254 := by
  refine ⟨by decide, by decide⟩

/-- C7 (amended): `run` exits 0 on success, propagates an available
subprocess exit code, uses the fixed sentinel 255 when a failed subprocess
has no exit code, and uses the distinct sentinel 254 (after logging) for
every internal failure surfaced as an `Error::Other` — non-UTF-8 output
and the ambiguous merge-base count among them; a multi-line configuration
value instead trips a fatal assertion and aborts by panic, bypassing
`run`'s exit-code mapping. -/
theorem run_exit_code_mapping :
    (run (.ok ()) = .exited 0) ∧
    (∀ c : Int, run (.err (.subprocessFailedWithExplanation (some c))) = .exited c) ∧
    (run (.err (.subprocessFailedWithExplanation none)) = .exited 255) ∧
    (∀ m, run (.err (.other m)) = .exited 254) ∧
    (∀ m, run (.panicked m) = .panicAbort m) ∧
    (∀ (env : GitEnv) (format : Option String) (refs files ls : List String),
       (env (mergeBaseArgs refs)).code = some 0 →
       (env (mergeBaseArgs refs)).out = .utf8 ls → ls.length ≠ 1 →
       run (show_graph env format refs files).res = .exited 254) ∧
    (∀ (env : GitEnv) (args : List String),
       (env args).code = some 0 → (env args).out = .nonUtf8 →
       run (match stdout_lines env args with
            | .ok _ => .ok ()
            | .err e => .err e
            | .panicked m => .panicked m) = .exited 254) := by
  refine ⟨rfl, fun c => rfl, rfl, fun m => rfl, fun m => rfl,
    fun env format refs files ls hcode hout hlen => ?_, fun env args hcode hout => ?_⟩
  · have hsl : stdout_lines env (mergeBaseArgs refs) = .ok (ls.map trimLine) := by
      simp [stdout_lines, fromStatus, hcode, hout]
    have hlen' : (ls.map trimLine).length ≠ 1 := by simpa using hlen
    simp [show_graph, hsl, hlen', hlen, run]
  · simp [stdout_lines, fromStatus, hcode, hout, run]

/-- C7 witness: each exit-code case at a concrete input, including the
ambiguous merge-base (two lines) and non-UTF-8 internal failures. -/
theorem run_exit_code_mapping_witness :
    run (.err (.subprocessFailedWithExplanation (some 7))) = .exited 7 ∧
    run (.panicked "m") = .panicAbort "m" ∧
    run (show_graph (fun _ => ⟨some 0, .utf8 ["a", "b"]⟩) none ["x", "y"] []).res =
      .exited 254 ∧
    run (match stdout_lines (fun _ => ⟨some 0, .nonUtf8⟩) ["branch"] with
         | .ok _ => .ok ()
         | .err e => .err e
         | .panicked m => .panicked m) = .exited 254 :=
  ⟨run_exit_code_mapping.2.1 7,
   run_exit_code_mapping.2.2.2.2.1 "m",
   run_exit_code_mapping.2.2.2.2.2.1 (fun _ => ⟨some 0, .utf8 ["a", "b"]⟩)
     none ["x", "y"] [] ["a", "b"] rfl rfl (by decide),
   run_exit_code_mapping.2.2.2.2.2.2 (fun _ => ⟨some 0, .nonUtf8⟩) ["branch"] rfl rfl⟩

end GitGlimpse
